import Mathlib

/-!
A verification development for the Gutenberg books API (`src/main.py`).

Strings are modelled as lists of Unicode code points (`List Nat`), so that
SQL `lower`, `LIKE` pattern matching and Python string operations become
plain functions over `Nat`.  The relational store is modelled as lists of
entity rows plus association pairs, mirroring the SQLAlchemy schema.  The
`/books` handler `get_books` is embedded as a pure function from a store
and the request parameters to an `Except` of the response.
-/

namespace Gutenberg

/-- Decidable equality of `Except` values, used to state concrete
evaluations of the handler. -/
instance exceptDecEq {ε α : Type} [DecidableEq ε] [DecidableEq α] :
    DecidableEq (Except ε α) := fun a b =>
  match a, b with
  | .ok x, .ok y =>
    if h : x = y then .isTrue (by rw [h]) else .isFalse (by simp [h])
  | .error x, .error y =>
    if h : x = y then .isTrue (by rw [h]) else .isFalse (by simp [h])
  | .ok _, .error _ => .isFalse (by simp)
  | .error _, .ok _ => .isFalse (by simp)

/-- ASCII lowering, the model of SQL `lower()` on one code point:
uppercase A–Z (65–90) maps to a–z (97–122), everything else unchanged. -/
def lowerChar (c : Nat) : Nat :=
  if 65 ≤ c ∧ c ≤ 90 then c + 32 else c

/-- `lower()` over a whole string. -/
def lowerStr (s : List Nat) : List Nat :=
  s.map lowerChar

/-- Whitespace code points stripped by Python `str.strip()` (ASCII part). -/
def isSpaceNat (c : Nat) : Bool :=
  c = 32 || c = 9 || c = 10 || c = 13 || c = 11 || c = 12

/-- Python `str.strip()`: drop leading and trailing whitespace. -/
def stripNat (s : List Nat) : List Nat :=
  ((s.dropWhile isSpaceNat).reverse.dropWhile isSpaceNat).reverse

/-- Python `str.split(',')`: split on the comma code point 44, keeping
empty chunks (`"".split(',') = [""]`, but the caller guards that case). -/
def splitComma : List Nat → List (List Nat)
  | [] => [[]]
  | c :: rest =>
    match splitComma rest with
    | [] => [[]]
    | g :: gs => if c = 44 then [] :: g :: gs else (c :: g) :: gs

/-- `parse_comma_separated` from `src/main.py`: `None` or the empty string
give `[]`; otherwise split on commas, strip each token, and drop tokens
that strip to empty. -/
def parse_comma_separated (value : Option (List Nat)) : List (List Nat) :=
  match value with
  | none => []
  | some v =>
    if v = [] then []
    else ((splitComma v).map stripNat).filter (fun t => t ≠ [])

/-- Python truthiness of an `Optional[str]`: `None` and `""` are falsy. -/
def truthy : Option (List Nat) → Bool
  | none => false
  | some v => v ≠ []

/-- ASCII decimal digit. -/
def isDigitN (c : Nat) : Bool :=
  48 ≤ c && c ≤ 57

/-- Helper for `pyIntCore`: walk the remaining characters remembering the
previous one. -/
def pyIntCoreGo : Nat → List Nat → Bool
  | _, [] => true
  | prev, c :: rest =>
    (if c = 95 then
      isDigitN prev && (match rest with | [] => false | d :: _ => isDigitN d)
     else isDigitN c) && pyIntCoreGo c rest

/-- Checker for the body of a Python integer literal: nonempty, every
character a digit or an underscore, an underscore only between two digits
(the grammar accepted by `int(...)` after the optional sign). -/
def pyIntCore : List Nat → Bool
  | [] => false
  | c :: rest => isDigitN c && pyIntCoreGo c rest

/-- Numeric value of a digit string (underscores already removed). -/
def natOfDigits (l : List Nat) : Nat :=
  l.foldl (fun acc c => acc * 10 + (c - 48)) 0

/-- Python `int(...)` on an already-stripped token: optional sign followed
by digits (with Python's underscore grouping); `none` when the token does
not parse, which in the handler raises `ValueError`. -/
def pyInt? (l : List Nat) : Option Int :=
  match l with
  | 43 :: rest =>
    if pyIntCore rest then some ((natOfDigits (rest.filter (fun c => c ≠ 95)) : Nat) : Int) else none
  | 45 :: rest =>
    if pyIntCore rest then some (-((natOfDigits (rest.filter (fun c => c ≠ 95)) : Nat) : Int)) else none
  | _ =>
    if pyIntCore l then some ((natOfDigits (l.filter (fun c => c ≠ 95)) : Nat) : Int) else none

/-- `anySuffix f s`: does `f` hold of some suffix of `s` (including `s`
itself)?  Used for the `%` wildcard of SQL `LIKE`. -/
def anySuffix (f : List Nat → Bool) : List Nat → Bool
  | [] => f []
  | c :: s => f (c :: s) || anySuffix f s

/-- SQL `LIKE` pattern matching: `%` (37) matches any sequence, `_` (95)
matches any single character, any other pattern character matches itself. -/
def likeMatch : List Nat → List Nat → Bool
  | [], s => s.isEmpty
  | c :: ps, s =>
    if c = 37 then anySuffix (likeMatch ps) s
    else
      match s with
      | [] => false
      | x :: s' => (c = 95 || c = x) && likeMatch ps s'

/-- The pattern `f"%{t}%"` built by the handler for a token `t`. -/
def patternFor (t : List Nat) : List Nat :=
  37 :: (t ++ [37])

/-- Boolean "is a prefix of" on code-point strings. -/
def prefixOf : List Nat → List Nat → Bool
  | [], _ => true
  | _ :: _, [] => false
  | a :: xs, b :: ys => a = b && prefixOf xs ys

/-- Boolean "occurs as a contiguous substring of". -/
def containsSub (t : List Nat) : List Nat → Bool
  | [] => prefixOf t []
  | c :: s => prefixOf t (c :: s) || containsSub t s

/-- Modelled from the spec's words (for comparison with the `LIKE`-based
code): `t` occurs in `text` as a case-insensitive substring, realised by
lowercasing both sides. -/
def specContains (t text : List Nat) : Bool :=
  containsSub (lowerStr t) (lowerStr text)

/-! ### The relational schema (`Base` models in `src/main.py`) -/

/-- Row of `books_book`. -/
structure Book where
  id : Nat
  title : Option (List Nat)
  download_count : Int
  deriving DecidableEq

/-- Row of `books_author` (name modelled as present). -/
structure Author where
  id : Nat
  name : List Nat
  birth_year : Option Int
  death_year : Option Int
  deriving DecidableEq

/-- Row of `books_subject`. -/
structure Subject where
  id : Nat
  name : List Nat
  deriving DecidableEq

/-- Row of `books_bookshelf`. -/
structure Bookshelf where
  id : Nat
  name : List Nat
  deriving DecidableEq

/-- Row of `books_language`. -/
structure Language where
  id : Nat
  code : List Nat
  deriving DecidableEq

/-- Row of `books_format`; belongs to one book via `book_id`. -/
structure Format where
  id : Nat
  mime_type : List Nat
  url : List Nat
  book_id : Nat
  deriving DecidableEq

/-- The read-only store: entity tables plus the four association tables. -/
structure Store where
  books : List Book
  authors : List Author
  subjects : List Subject
  bookshelves : List Bookshelf
  languages : List Language
  formats : List Format
  book_authors : List (Nat × Nat)
  book_subjects : List (Nat × Nat)
  book_bookshelves : List (Nat × Nat)
  book_languages : List (Nat × Nat)
  deriving DecidableEq

/-- The `Book.authors` relationship collection. -/
def bookAuthors (s : Store) (b : Book) : List Author :=
  s.authors.filter (fun a => decide ((b.id, a.id) ∈ s.book_authors))

/-- The `Book.subjects` relationship collection. -/
def bookSubjects (s : Store) (b : Book) : List Subject :=
  s.subjects.filter (fun x => decide ((b.id, x.id) ∈ s.book_subjects))

/-- The `Book.bookshelves` relationship collection. -/
def bookShelves (s : Store) (b : Book) : List Bookshelf :=
  s.bookshelves.filter (fun x => decide ((b.id, x.id) ∈ s.book_bookshelves))

/-- The `Book.languages` relationship collection. -/
def bookLangs (s : Store) (b : Book) : List Language :=
  s.languages.filter (fun l => decide ((b.id, l.id) ∈ s.book_languages))

/-- The `Book.formats` relationship collection. -/
def bookFormats (s : Store) (b : Book) : List Format :=
  s.formats.filter (fun f => f.book_id = b.id)

/-! ### Request parameters and parsing -/

/-- The query parameters of `GET /books`.  `page` and `page_size` are
validated by the HTTP layer (`page ≥ 1`, `1 ≤ page_size ≤ 100`), carried
here as plain naturals. -/
structure Params where
  book_id : Option (List Nat)
  language : Option (List Nat)
  mime_type : Option (List Nat)
  topic : Option (List Nat)
  author : Option (List Nat)
  title : Option (List Nat)
  page : Nat
  page_size : Nat
  deriving DecidableEq

/-- The error raised while building the filters: `int(bid)` raising
`ValueError` on a malformed `book_id` token. -/
inductive ApiError where
  | invalidBookId (token : List Nat)
  deriving DecidableEq

/-- `[int(bid) for bid in ...]`: left-to-right conversion aborting at the
first token that does not parse. -/
def parseIds : List (List Nat) → Except ApiError (List Int)
  | [] => .ok []
  | t :: ts =>
    match pyInt? t with
    | none => .error (.invalidBookId t)
    | some n =>
      match parseIds ts with
      | .error e => .error e
      | .ok ns => .ok (n :: ns)

/-- The active filters after the `if param:` guards in `get_books`.
A field is `some values` exactly when the code appends the corresponding
condition to `filters` (for `book_id`, `language`, `mime_type` the guard
is truthiness of the raw parameter; for `topic`, `author`, `title` the
condition list must additionally be nonempty). -/
structure ParsedQuery where
  bookIds : Option (List Int)
  langs : Option (List (List Nat))
  mimes : Option (List (List Nat))
  topics : Option (List (List Nat))
  authorToks : Option (List (List Nat))
  titleToks : Option (List (List Nat))
  deriving DecidableEq

/-- Token sets that yield no condition when empty (`if topic_conditions:`
and the analogous guards for author and title). -/
def nonEmptyOpt (l : List (List Nat)) : Option (List (List Nat)) :=
  if l = [] then none else some l

/-- The filter-construction phase of `get_books`: evaluates every
`if param:` guard and the `int(...)` conversions, producing the set of
active filters or the `ValueError` for a malformed `book_id` token. -/
def parseParams (p : Params) : Except ApiError ParsedQuery :=
  match (if truthy p.book_id then
           (parseIds (parse_comma_separated p.book_id)).map some
         else .ok none) with
  | .error e => .error e
  | .ok bids =>
    .ok { bookIds := bids
          langs := if truthy p.language then some (parse_comma_separated p.language) else none
          mimes := if truthy p.mime_type then some (parse_comma_separated p.mime_type) else none
          topics := if truthy p.topic then nonEmptyOpt (parse_comma_separated p.topic) else none
          authorToks := if truthy p.author then nonEmptyOpt (parse_comma_separated p.author) else none
          titleToks := if truthy p.title then nonEmptyOpt (parse_comma_separated p.title) else none }

/-! ### The composed query -/

/-- One topic token's condition: the book has an associated Subject whose
id is among the subjects whose lowered name `LIKE`-matches the lowered
`%token%` pattern, OR likewise for Bookshelf (the two subqueries and the
`or_` at lines 235–247 of `src/main.py`). -/
def topicTokenCond (s : Store) (t : List Nat) (b : Book) : Bool :=
  (bookSubjects s b).any (fun x =>
    decide (x.id ∈ (s.subjects.filter (fun y =>
      likeMatch (lowerStr (patternFor t)) (lowerStr y.name))).map Subject.id))
  || (bookShelves s b).any (fun x =>
    decide (x.id ∈ (s.bookshelves.filter (fun y =>
      likeMatch (lowerStr (patternFor t)) (lowerStr y.name))).map Bookshelf.id))

/-- One author token's condition: `Book.authors.any(lower(name) LIKE lower(pattern))`. -/
def authorTokenCond (s : Store) (t : List Nat) (b : Book) : Bool :=
  (bookAuthors s b).any (fun a => likeMatch (lowerStr (patternFor t)) (lowerStr a.name))

/-- One title token's condition: `lower(Book.title) LIKE lower(pattern)`;
a NULL title compares as SQL NULL and never matches. -/
def titleTokenCond (t : List Nat) (b : Book) : Bool :=
  match b.title with
  | none => false
  | some ti => likeMatch (lowerStr (patternFor t)) (lowerStr ti)

/-- The rows produced by the joins: one row per book, multiplied by its
languages when the language filter joined `Book.languages`, and by its
formats when the mime-type filter joined `Book.formats`. -/
def queryRows (s : Store) (q : ParsedQuery) :
    List (Book × Option Language × Option Format) :=
  s.books.flatMap (fun b =>
    (match q.langs with
     | some _ => (bookLangs s b).map some
     | none => [none]).flatMap (fun l? =>
      (match q.mimes with
       | some _ => (bookFormats s b).map some
       | none => [none]).map (fun f? => (b, l?, f?))))

/-- The conjunction `and_(*filters)` evaluated on one joined row. -/
def rowCond (s : Store) (q : ParsedQuery)
    (r : Book × Option Language × Option Format) : Bool :=
  (match q.bookIds with
   | none => true
   | some ids => decide ((r.1.id : Int) ∈ ids)) &&
  (match q.langs with
   | none => true
   | some ls => match r.2.1 with
     | some l => decide (l.code ∈ ls)
     | none => false) &&
  (match q.mimes with
   | none => true
   | some ms => match r.2.2 with
     | some f => decide (f.mime_type ∈ ms)
     | none => false) &&
  (match q.topics with
   | none => true
   | some ts => ts.any (fun t => topicTokenCond s t r.1)) &&
  (match q.authorToks with
   | none => true
   | some ts => ts.any (fun t => authorTokenCond s t r.1)) &&
  (match q.titleToks with
   | none => true
   | some ts => ts.any (fun t => titleTokenCond t r.1))

/-- `query.distinct()` after filtering: the distinct matching books
(`SELECT DISTINCT` on the book columns). -/
def matchingBooks (s : Store) (q : ParsedQuery) : List Book :=
  (((queryRows s q).filter (rowCond s q)).map (fun r => r.1)).dedup

/-- The per-book reading of the combined filters: AND across the active
categories, OR (`any`) within a category's values; used to characterise
membership in `matchingBooks`. -/
def bookPred (s : Store) (q : ParsedQuery) (b : Book) : Bool :=
  (match q.bookIds with
   | none => true
   | some ids => decide ((b.id : Int) ∈ ids)) &&
  (match q.langs with
   | none => true
   | some ls => (bookLangs s b).any (fun l => decide (l.code ∈ ls))) &&
  (match q.mimes with
   | none => true
   | some ms => (bookFormats s b).any (fun f => decide (f.mime_type ∈ ms))) &&
  (match q.topics with
   | none => true
   | some ts => ts.any (fun t => topicTokenCond s t b)) &&
  (match q.authorToks with
   | none => true
   | some ts => ts.any (fun t => authorTokenCond s t b)) &&
  (match q.titleToks with
   | none => true
   | some ts => ts.any (fun t => titleTokenCond t b))

/-- Insertion step of `ORDER BY download_count DESC`: `b` goes in front of
the first element with a strictly smaller download count. -/
def insertByDc (b : Book) : List Book → List Book
  | [] => [b]
  | x :: xs =>
    if x.download_count < b.download_count then b :: x :: xs
    else x :: insertByDc b xs

/-- `ORDER BY download_count DESC` as a deterministic insertion sort. -/
def sortByDcDesc : List Book → List Book
  | [] => []
  | b :: bs => insertByDc b (sortByDcDesc bs)

/-! ### Response shape and projection -/

/-- `AuthorInfo` response model. -/
structure AuthorInfo where
  name : List Nat
  birth_year : Option Int
  death_year : Option Int
  deriving DecidableEq

/-- `DownloadLink` response model. -/
structure DownloadLink where
  mime_type : List Nat
  url : List Nat
  deriving DecidableEq

/-- `BookResponse` response model. -/
structure BookResponse where
  id : Nat
  title : List Nat
  authors : List AuthorInfo
  genres : List (List Nat)
  languages : List (List Nat)
  subjects : List (List Nat)
  bookshelves : List (List Nat)
  download_links : List DownloadLink
  deriving DecidableEq

/-- `BooksListResponse` response model. -/
structure BooksListResponse where
  count : Nat
  results : List BookResponse
  page : Nat
  total_pages : Nat
  deriving DecidableEq

/-- The code points of the literal string `"Unknown"`. -/
def unknownTitle : List Nat :=
  [85, 110, 107, 110, 111, 119, 110]

/-- The response projection for one book (lines 298–317 of `src/main.py`);
`book.title or "Unknown"` substitutes for both a NULL and an empty title. -/
def projectBook (s : Store) (b : Book) : BookResponse :=
  { id := b.id
    title := match b.title with
      | none => unknownTitle
      | some t => if t = [] then unknownTitle else t
    authors := (bookAuthors s b).map (fun a =>
      { name := a.name, birth_year := a.birth_year, death_year := a.death_year })
    genres := (bookSubjects s b).map Subject.name
    languages := (bookLangs s b).map Language.code
    subjects := (bookSubjects s b).map Subject.name
    bookshelves := (bookShelves s b).map Bookshelf.name
    download_links := (bookFormats s b).map (fun f =>
      { mime_type := f.mime_type, url := f.url }) }

/-- Execution of the composed query: distinct count, sort, offset/limit
slice, projection, and `total_pages = (count + page_size - 1) // page_size`. -/
def runQuery (s : Store) (q : ParsedQuery) (page page_size : Nat) :
    BooksListResponse :=
  let total_count := (matchingBooks s q).length
  let sorted := sortByDcDesc (matchingBooks s q)
  let pageBooks := (sorted.drop ((page - 1) * page_size)).take page_size
  { count := total_count
    results := pageBooks.map (projectBook s)
    page := page
    total_pages := (total_count + page_size - 1) / page_size }

/-- The `/books` handler: build the filters (`ValueError` on a malformed
`book_id` token aborts the request), then run the composed query. -/
def get_books (s : Store) (p : Params) : Except ApiError BooksListResponse :=
  match parseParams p with
  | .error e => .error e
  | .ok q => .ok (runQuery s q p.page p.page_size)

/-! ### Concrete fixtures used by closed evaluations -/

/-- Book 7 with the single subject "xyz" attached, used to exhibit the
`LIKE` wildcard behaviour of the topic filter. -/
def tStore : Store :=
  { books := [{ id := 7, title := none, download_count := 0 }]
    authors := []
    subjects := [{ id := 1, name := [120, 121, 122] }]
    bookshelves := []
    languages := []
    formats := []
    book_authors := []
    book_subjects := [(7, 1)]
    book_bookshelves := []
    book_languages := [] }

/-- "Moby" (download count 100, language "en") — witness fixture. -/
def wBook1 : Book := { id := 1, title := some [77, 111, 98, 121], download_count := 100 }

/-- "War" (download count 50, language "fr") — witness fixture. -/
def wBook2 : Book := { id := 2, title := some [87, 97, 114], download_count := 50 }

/-- A two-book store with languages "en" and "fr" — witness fixture. -/
def wStore : Store :=
  { books := [wBook1, wBook2]
    authors := []
    subjects := []
    bookshelves := []
    languages := [{ id := 10, code := [101, 110] }, { id := 11, code := [102, 114] }]
    formats := []
    book_authors := []
    book_subjects := []
    book_bookshelves := []
    book_languages := [(1, 10), (2, 11)] }

def wPNone : Params := ⟨none, none, none, none, none, none, 1, 25⟩
def wQNone : ParsedQuery := ⟨none, none, none, none, none, none⟩

/-- Book 1 of the tie pair: download count 5. -/
def tieB1 : Book := { id := 1, title := none, download_count := 5 }

/-- Book 2 of the tie pair: the same download count 5. -/
def tieB2 : Book := { id := 2, title := none, download_count := 5 }

/-- A store whose whole matching set is two books with equal download
counts — the `ORDER BY download_count DESC` tie case. -/
def tieStore : Store :=
  { books := [tieB1, tieB2]
    authors := [], subjects := [], bookshelves := [], languages := [], formats := []
    book_authors := [], book_subjects := [], book_bookshelves := [], book_languages := [] }
def wPNone1 : Params := ⟨none, none, none, none, none, none, 1, 1⟩
def shStore : Store :=
  { books := [{ id := 7, title := none, download_count := 0 }]
    authors := [], subjects := []
    bookshelves := [{ id := 1, name := [119, 97, 114] }]
    languages := [], formats := []
    book_authors := [], book_subjects := []
    book_bookshelves := [(7, 1)], book_languages := [] }
def uStore : Store :=
  { books := [{ id := 3, title := some [], download_count := 10 }]
    authors := [], subjects := [], bookshelves := [], languages := [], formats := []
    book_authors := [], book_subjects := [], book_bookshelves := [], book_languages := [] }

/-! ### Lemmas and claim theorems -/

lemma insertByDc_perm (b : Book) (l : List Book) :
    List.Perm (insertByDc b l) (b :: l) := by
  induction l with
  | nil => simp [insertByDc]
  | cons x xs ih =>
    simp only [insertByDc]
    split
    · exact List.Perm.refl _
    · exact (ih.cons x).trans (List.Perm.swap b x xs)

lemma sortByDcDesc_perm (l : List Book) :
    List.Perm (sortByDcDesc l) l := by
  induction l with
  | nil => simp [sortByDcDesc]
  | cons b bs ih =>
    exact (insertByDc_perm b (sortByDcDesc bs)).trans (ih.cons b)

lemma mem_insertByDc {y b : Book} {l : List Book} :
    y ∈ insertByDc b l ↔ y = b ∨ y ∈ l :=
  (insertByDc_perm b l).mem_iff.trans List.mem_cons

lemma sorted_insertByDc {b : Book} {l : List Book}
    (h : List.Pairwise (fun a c => c.download_count ≤ a.download_count) l) :
    List.Pairwise (fun a c => c.download_count ≤ a.download_count) (insertByDc b l) := by
  induction l with
  | nil => simp [insertByDc]
  | cons x xs ih =>
    rw [List.pairwise_cons] at h
    obtain ⟨hx, hp⟩ := h
    simp only [insertByDc]
    split
    · rename_i hlt
      refine List.pairwise_cons.2 ⟨?_, List.pairwise_cons.2 ⟨hx, hp⟩⟩
      intro c hc
      rcases List.mem_cons.1 hc with rfl | hc
      · exact le_of_lt hlt
      · exact le_trans (hx c hc) (le_of_lt hlt)
    · rename_i hge
      refine List.pairwise_cons.2 ⟨?_, ih hp⟩
      intro c hc
      rcases mem_insertByDc.1 hc with rfl | hc
      · exact le_of_not_lt hge
      · exact hx c hc

lemma sorted_sortByDcDesc (l : List Book) :
    List.Pairwise (fun a c => c.download_count ≤ a.download_count) (sortByDcDesc l) := by
  induction l with
  | nil => simp [sortByDcDesc]
  | cons b bs ih => exact sorted_insertByDc ih

lemma truthy_of_parse_ne_nil {v : Option (List Nat)} (h : parse_comma_separated v ≠ []) :
    truthy v = true := by
  cases v with
  | none => simp [parse_comma_separated] at h
  | some l =>
    rcases eq_or_ne l [] with rfl | hl
    · simp [parse_comma_separated] at h
    · simp [truthy, hl]

lemma parseIds_error_of_bad :
    ∀ (ts : List (List Nat)), (∃ t ∈ ts, pyInt? t = none) →
      ∃ bad, bad ∈ ts ∧ pyInt? bad = none ∧
        parseIds ts = .error (.invalidBookId bad) := by
  intro ts
  induction ts with
  | nil => rintro ⟨t, h, _⟩; cases h
  | cons t ts ih =>
    rintro ⟨u, hu, hbadu⟩
    by_cases h : pyInt? t = none
    · exact ⟨t, by simp, h, by simp [parseIds, h]⟩
    · rcases List.mem_cons.1 hu with rfl | hu'
      · exact absurd hbadu h
      · obtain ⟨bad, hb1, hb2, hb3⟩ := ih ⟨u, hu', hbadu⟩
        refine ⟨bad, by simp [hb1], hb2, ?_⟩
        obtain ⟨m, hm⟩ := Option.ne_none_iff_exists'.1 h
        simp [parseIds, hm, hb3]

lemma mem_queryRows_nn {s : Store} {bids ts aus tts} {r : Book × Option Language × Option Format} :
    r ∈ queryRows s ⟨bids, none, none, ts, aus, tts⟩ ↔
      ∃ b ∈ s.books, r = (b, none, none) := by
  simp [queryRows]

lemma mem_queryRows_sn {s : Store} {bids lv ts aus tts} {r : Book × Option Language × Option Format} :
    r ∈ queryRows s ⟨bids, some lv, none, ts, aus, tts⟩ ↔
      ∃ b ∈ s.books, ∃ l ∈ bookLangs s b, r = (b, some l, none) := by
  simp [queryRows]

lemma mem_queryRows_ns {s : Store} {bids mv ts aus tts} {r : Book × Option Language × Option Format} :
    r ∈ queryRows s ⟨bids, none, some mv, ts, aus, tts⟩ ↔
      ∃ b ∈ s.books, ∃ f ∈ bookFormats s b, r = (b, none, some f) := by
  simp [queryRows, eq_comm]

lemma mem_queryRows_ss {s : Store} {bids lv mv ts aus tts} {r : Book × Option Language × Option Format} :
    r ∈ queryRows s ⟨bids, some lv, some mv, ts, aus, tts⟩ ↔
      ∃ b ∈ s.books, ∃ l ∈ bookLangs s b, ∃ f ∈ bookFormats s b, r = (b, some l, some f) := by
  simp only [queryRows, List.mem_flatMap, List.mem_map]
  aesop

lemma mem_matchingBooks {s : Store} {q : ParsedQuery} {b : Book} :
    b ∈ matchingBooks s q ↔ b ∈ s.books ∧ bookPred s q b = true := by
  have base : ∀ (q' : ParsedQuery), b ∈ matchingBooks s q' ↔
      ∃ r, (r ∈ queryRows s q' ∧ rowCond s q' r = true) ∧ r.1 = b := by
    intro q'
    simp [matchingBooks, List.mem_dedup, List.mem_map, List.mem_filter]
  obtain ⟨bids, ls, ms, ts, aus, tts⟩ := q
  cases ls <;> cases ms
  case none.none =>
    rw [base]
    constructor
    · rintro ⟨r, ⟨hrow, hcond⟩, hr1⟩
      obtain ⟨b', hb', rfl⟩ := mem_queryRows_nn.1 hrow
      cases hr1
      refine ⟨hb', ?_⟩
      simpa [rowCond, bookPred] using hcond
    · rintro ⟨hb, hpred⟩
      refine ⟨(b, none, none), ⟨mem_queryRows_nn.2 ⟨b, hb, rfl⟩, ?_⟩, rfl⟩
      simpa [rowCond, bookPred] using hpred
  case some.none =>
    rw [base]
    constructor
    · rintro ⟨r, ⟨hrow, hcond⟩, hr1⟩
      obtain ⟨b', hb', l, hl, rfl⟩ := mem_queryRows_sn.1 hrow
      cases hr1
      simp only [rowCond, Bool.and_eq_true, decide_eq_true_eq, and_true, true_and] at hcond
      obtain ⟨⟨⟨⟨h1, hcode⟩, htop⟩, hau⟩, hti⟩ := hcond
      refine ⟨hb', ?_⟩
      simp only [bookPred, Bool.and_eq_true, decide_eq_true_eq, List.any_eq_true,
        and_true, true_and]
      exact ⟨⟨⟨⟨h1, ⟨l, hl, hcode⟩⟩, htop⟩, hau⟩, hti⟩
    · rintro ⟨hb, hpred⟩
      simp only [bookPred, Bool.and_eq_true, decide_eq_true_eq, List.any_eq_true,
        and_true, true_and] at hpred
      obtain ⟨⟨⟨⟨h1, ⟨l, hl, hcode⟩⟩, htop⟩, hau⟩, hti⟩ := hpred
      refine ⟨(b, some l, none), ⟨mem_queryRows_sn.2 ⟨b, hb, l, hl, rfl⟩, ?_⟩, rfl⟩
      simp only [rowCond, Bool.and_eq_true, decide_eq_true_eq, and_true, true_and]
      exact ⟨⟨⟨⟨h1, hcode⟩, htop⟩, hau⟩, hti⟩
  case none.some =>
    rw [base]
    constructor
    · rintro ⟨r, ⟨hrow, hcond⟩, hr1⟩
      obtain ⟨b', hb', f, hf, rfl⟩ := mem_queryRows_ns.1 hrow
      cases hr1
      simp only [rowCond, Bool.and_eq_true, decide_eq_true_eq, and_true, true_and] at hcond
      obtain ⟨⟨⟨⟨h1, hmime⟩, htop⟩, hau⟩, hti⟩ := hcond
      refine ⟨hb', ?_⟩
      simp only [bookPred, Bool.and_eq_true, decide_eq_true_eq, List.any_eq_true,
        and_true, true_and]
      exact ⟨⟨⟨⟨h1, ⟨f, hf, hmime⟩⟩, htop⟩, hau⟩, hti⟩
    · rintro ⟨hb, hpred⟩
      simp only [bookPred, Bool.and_eq_true, decide_eq_true_eq, List.any_eq_true,
        and_true, true_and] at hpred
      obtain ⟨⟨⟨⟨h1, ⟨f, hf, hmime⟩⟩, htop⟩, hau⟩, hti⟩ := hpred
      refine ⟨(b, none, some f), ⟨mem_queryRows_ns.2 ⟨b, hb, f, hf, rfl⟩, ?_⟩, rfl⟩
      simp only [rowCond, Bool.and_eq_true, decide_eq_true_eq, and_true, true_and]
      exact ⟨⟨⟨⟨h1, hmime⟩, htop⟩, hau⟩, hti⟩
  case some.some =>
    rw [base]
    constructor
    · rintro ⟨r, ⟨hrow, hcond⟩, hr1⟩
      obtain ⟨b', hb', l, hl, f, hf, rfl⟩ := mem_queryRows_ss.1 hrow
      cases hr1
      simp only [rowCond, Bool.and_eq_true, decide_eq_true_eq, and_true, true_and] at hcond
      obtain ⟨⟨⟨⟨⟨h1, hcode⟩, hmime⟩, htop⟩, hau⟩, hti⟩ := hcond
      refine ⟨hb', ?_⟩
      simp only [bookPred, Bool.and_eq_true, decide_eq_true_eq, List.any_eq_true,
        and_true, true_and]
      exact ⟨⟨⟨⟨⟨h1, ⟨l, hl, hcode⟩⟩, ⟨f, hf, hmime⟩⟩, htop⟩, hau⟩, hti⟩
    · rintro ⟨hb, hpred⟩
      simp only [bookPred, Bool.and_eq_true, decide_eq_true_eq, List.any_eq_true,
        and_true, true_and] at hpred
      obtain ⟨⟨⟨⟨⟨h1, ⟨l, hl, hcode⟩⟩, ⟨f, hf, hmime⟩⟩, htop⟩, hau⟩, hti⟩ := hpred
      refine ⟨(b, some l, some f), ⟨mem_queryRows_ss.2 ⟨b, hb, l, hl, f, hf, rfl⟩, ?_⟩, rfl⟩
      simp only [rowCond, Bool.and_eq_true, decide_eq_true_eq, and_true, true_and]
      exact ⟨⟨⟨⟨⟨h1, hcode⟩, hmime⟩, htop⟩, hau⟩, hti⟩

lemma mem_bookLangs {s : Store} {b : Book} {l : Language} :
    l ∈ bookLangs s b ↔ l ∈ s.languages ∧ (b.id, l.id) ∈ s.book_languages := by
  simp [bookLangs]

lemma mem_bookSubjects {s : Store} {b : Book} {x : Subject} :
    x ∈ bookSubjects s b ↔ x ∈ s.subjects ∧ (b.id, x.id) ∈ s.book_subjects := by
  simp [bookSubjects]

lemma mem_bookShelves {s : Store} {b : Book} {x : Bookshelf} :
    x ∈ bookShelves s b ↔ x ∈ s.bookshelves ∧ (b.id, x.id) ∈ s.book_bookshelves := by
  simp [bookShelves]

lemma lowerStr_patternFor (t : List Nat) :
    lowerStr (patternFor t) = 37 :: (lowerStr t ++ [37]) := by
  simp [lowerStr, patternFor, lowerChar]

lemma lowerChar_not_wild {c : Nat} (h37 : c ≠ 37) (h95 : c ≠ 95) :
    lowerChar c ≠ 37 ∧ lowerChar c ≠ 95 := by
  unfold lowerChar
  split
  · rename_i h; omega
  · exact ⟨h37, h95⟩

lemma anySuffix_congr {f g : List Nat → Bool} (h : ∀ x, f x = g x) :
    ∀ s, anySuffix f s = anySuffix g s := by
  intro s
  induction s with
  | nil => simp [anySuffix, h]
  | cons c s ih => simp [anySuffix, h, ih]

lemma containsSub_eq_anySuffix (t : List Nat) :
    ∀ s, containsSub t s = anySuffix (prefixOf t) s := by
  intro s
  induction s with
  | nil => rfl
  | cons c s ih => simp [containsSub, anySuffix, ih]

lemma anySuffix_true_of_nil {f : List Nat → Bool} (hf : f [] = true) :
    ∀ s, anySuffix f s = true := by
  intro s
  induction s with
  | nil => simpa [anySuffix] using hf
  | cons c s ih => simp [anySuffix, ih]

lemma likeMatch_lit {t : List Nat} :
    ∀ s, (∀ c ∈ t, c ≠ 37 ∧ c ≠ 95) → likeMatch (t ++ [37]) s = prefixOf t s := by
  induction t with
  | nil =>
    intro s _
    have h1 : likeMatch ([] ++ [37]) s = true := by
      simpa [likeMatch] using @anySuffix_true_of_nil (likeMatch []) rfl s
    rw [h1]
    rfl
  | cons c t ih =>
    intro s hw
    have hc := hw c (by simp)
    cases s with
    | nil =>
      simp [likeMatch, prefixOf, hc.1]
    | cons x s' =>
      have ht : ∀ c' ∈ t, c' ≠ 37 ∧ c' ≠ 95 := fun c' hc' => hw c' (by simp [hc'])
      simp [likeMatch, prefixOf, hc.1, hc.2, ih s' ht]

lemma likeMatch_pattern {t : List Nat} (hw : ∀ c ∈ t, c ≠ 37 ∧ c ≠ 95) (s : List Nat) :
    likeMatch (37 :: (t ++ [37])) s = containsSub t s := by
  have h1 : likeMatch (37 :: (t ++ [37])) s = anySuffix (likeMatch (t ++ [37])) s := by
    simp [likeMatch]
  rw [h1, containsSub_eq_anySuffix]
  exact anySuffix_congr (fun x => likeMatch_lit x hw) s

lemma likePattern_eq_specContains {t : List Nat} (hw : ∀ c ∈ t, c ≠ 37 ∧ c ≠ 95)
    (nm : List Nat) :
    likeMatch (lowerStr (patternFor t)) (lowerStr nm) = specContains t nm := by
  rw [lowerStr_patternFor, specContains]
  refine likeMatch_pattern ?_ (lowerStr nm)
  intro c hc
  obtain ⟨c0, hc0, rfl⟩ := List.mem_map.1 hc
  exact lowerChar_not_wild (hw c0 hc0).1 (hw c0 hc0).2

lemma topicTokenCond_iff {s : Store} {t : List Nat} {b : Book}
    (hsub : (s.subjects.map Subject.id).Nodup)
    (hsh : (s.bookshelves.map Bookshelf.id).Nodup)
    (hw : ∀ c ∈ t, c ≠ 37 ∧ c ≠ 95) :
    topicTokenCond s t b = true ↔
      (∃ x ∈ bookSubjects s b, specContains t x.name = true) ∨
      (∃ x ∈ bookShelves s b, specContains t x.name = true) := by
  simp only [topicTokenCond, Bool.or_eq_true, List.any_eq_true, decide_eq_true_eq,
    List.mem_map, List.mem_filter]
  constructor
  · rintro (⟨x, hx, y, ⟨hy, hylike⟩, hid⟩ | ⟨x, hx, y, ⟨hy, hylike⟩, hid⟩)
    · left
      have hxs : x ∈ s.subjects := (mem_bookSubjects.1 hx).1
      have hxy : y = x := List.inj_on_of_nodup_map hsub hy hxs hid
      subst hxy
      exact ⟨y, hx, by rw [← likePattern_eq_specContains hw]; exact hylike⟩
    · right
      have hxs : x ∈ s.bookshelves := (mem_bookShelves.1 hx).1
      have hxy : y = x := List.inj_on_of_nodup_map hsh hy hxs hid
      subst hxy
      exact ⟨y, hx, by rw [← likePattern_eq_specContains hw]; exact hylike⟩
  · rintro (⟨x, hx, hspec⟩ | ⟨x, hx, hspec⟩)
    · left
      exact ⟨x, hx, x, ⟨(mem_bookSubjects.1 hx).1,
        by rw [likePattern_eq_specContains hw]; exact hspec⟩, rfl⟩
    · right
      exact ⟨x, hx, x, ⟨(mem_bookShelves.1 hx).1,
        by rw [likePattern_eq_specContains hw]; exact hspec⟩, rfl⟩

lemma get_books_ok {s : Store} {p : Params} {q : ParsedQuery}
    (hq : parseParams p = .ok q) :
    get_books s p = .ok (runQuery s q p.page p.page_size) := by
  simp [get_books, hq]

lemma parseParams_page {p : Params} (k : Nat) :
    parseParams { p with page := k } = parseParams p := rfl

lemma get_books_page {s : Store} {p : Params} {q : ParsedQuery}
    (hq : parseParams p = .ok q) (k : Nat) :
    get_books s { p with page := k } = .ok (runQuery s q k p.page_size) := by
  simp [get_books, parseParams_page, hq]

lemma runQuery_count (s : Store) (q : ParsedQuery) (page ps : Nat) :
    (runQuery s q page ps).count = (matchingBooks s q).length := rfl

lemma runQuery_results (s : Store) (q : ParsedQuery) (page ps : Nat) :
    (runQuery s q page ps).results =
      (((sortByDcDesc (matchingBooks s q)).drop ((page - 1) * ps)).take ps).map
        (projectBook s) := rfl

lemma runQuery_total (s : Store) (q : ParsedQuery) (page ps : Nat) :
    (runQuery s q page ps).total_pages = ((matchingBooks s q).length + ps - 1) / ps := rfl

lemma mem_results {s : Store} {q : ParsedQuery} {page ps : Nat} {resp : BookResponse}
    (h : resp ∈ (runQuery s q page ps).results) :
    ∃ b, b ∈ s.books ∧ bookPred s q b = true ∧ resp = projectBook s b := by
  rw [runQuery_results] at h
  obtain ⟨b, hb, rfl⟩ := List.mem_map.1 h
  have hb2 : b ∈ sortByDcDesc (matchingBooks s q) :=
    (List.drop_sublist _ _).subset ((List.take_sublist _ _).subset hb)
  have hb3 : b ∈ matchingBooks s q := (sortByDcDesc_perm _).subset hb2
  obtain ⟨h1, h2⟩ := mem_matchingBooks.1 hb3
  exact ⟨b, h1, h2, rfl⟩

lemma matchingBooks_all (s : Store) :
    matchingBooks s ⟨none, none, none, none, none, none⟩ = s.books.dedup := by
  have hcond : ∀ r, rowCond s ⟨none, none, none, none, none, none⟩ r = true :=
    fun r => rfl
  rw [matchingBooks, List.filter_eq_self.2 (fun r _ => hcond r)]
  have haux : ∀ (l : List Book), List.map (fun r => r.1)
      (l.flatMap fun b =>
        (([none] : List (Option Language)).flatMap fun l? =>
          ([none] : List (Option Format)).map fun f? => (b, l?, f?))) = l := by
    intro l
    induction l with
    | nil => rfl
    | cons b bs ih => simp_all
  rw [queryRows]
  rw [haux s.books]

lemma ok_inj {ε α : Type} {x y : α} (h : (Except.ok x : Except ε α) = .ok y) : x = y := by
  cases h; rfl

lemma get_books_out {s : Store} {p : Params} {q : ParsedQuery} {r : BooksListResponse}
    (hq : parseParams p = .ok q) (hr : get_books s p = .ok r) :
    r = runQuery s q p.page p.page_size := by
  have h : Except.ok (runQuery s q p.page p.page_size) = Except.ok r :=
    (get_books_ok hq).symm.trans hr
  exact (ok_inj h).symm

/-- C1: the active per-category filters combine by logical AND (with OR
inside a category, as recorded in `bookPred`): every book projected into
`results` satisfies `bookPred`; and with zero active filters the count is
the number of distinct books in the store. -/
theorem C1_filters_and (s : Store) (p : Params) (q : ParsedQuery) (r : BooksListResponse)
    (hq : parseParams p = .ok q) (hr : get_books s p = .ok r) :
    (∀ resp ∈ r.results, ∃ b ∈ s.books, bookPred s q b = true ∧ resp = projectBook s b)
    ∧ (q = ⟨none, none, none, none, none, none⟩ → r.count = s.books.dedup.length) := by
  have hr2 := get_books_out hq hr
  subst hr2
  constructor
  · intro resp hresp
    obtain ⟨b, h1, h2, h3⟩ := mem_results hresp
    exact ⟨b, h1, h2, h3⟩
  · rintro rfl
    rw [runQuery_count, matchingBooks_all]

/-- A `book_id` parameter containing a token that does not parse as an
integer makes `get_books` abort with the `ValueError` for (the first) such
token, for every store alike, returning no result list and skipping
nothing. -/
lemma bad_book_id_aborts (p : Params) (t : List Nat)
    (ht : t ∈ parse_comma_separated p.book_id) (hbad : pyInt? t = none) :
    ∃ bad, bad ∈ parse_comma_separated p.book_id ∧ pyInt? bad = none ∧
      ∀ s : Store, get_books s p = .error (.invalidBookId bad) := by
  have hne : parse_comma_separated p.book_id ≠ [] := by
    intro h
    rw [h] at ht
    cases ht
  have htr : truthy p.book_id = true := truthy_of_parse_ne_nil hne
  obtain ⟨bad, hb1, hb2, hb3⟩ := parseIds_error_of_bad _ ⟨t, ht, hbad⟩
  refine ⟨bad, hb1, hb2, fun s => ?_⟩
  simp [get_books, parseParams, htr, hb3, Except.map]

/-- C3: the code-bug evidence — the `book_id` token `"abc"` (codes
`[97,98,99]`) does not parse as an integer and `get_books` aborts with that
token's `ValueError` for every store alike (so before any store query),
with no result list returned and no silent skipping; but the handler has no
`except` and never raises `HTTPException` (imported and unused), so the
hosting HTTP layer surfaces the escaped `ValueError` as a server error
instead of the client validation error response the claim describes. -/
theorem C3_bad_book_id_bug :
    parse_comma_separated (some [97, 98, 99]) = [[97, 98, 99]]
    ∧ pyInt? [97, 98, 99] = none
    ∧ ∀ s : Store,
        get_books s ⟨some [97, 98, 99], none, none, none, none, none, 1, 25⟩
          = .error (.invalidBookId [97, 98, 99]) := by
  refine ⟨by decide, by decide, fun s => ?_⟩
  have h : parseParams ⟨some [97, 98, 99], none, none, none, none, none, 1, 25⟩
      = .error (.invalidBookId [97, 98, 99]) := by decide
  simp [get_books, h]

lemma matchingBooks_subset {s : Store} {q : ParsedQuery} {b : Book}
    (hb : b ∈ matchingBooks s q) : b ∈ s.books :=
  (mem_matchingBooks.1 hb).1

lemma nodup_matching_map_id {s : Store} (q : ParsedQuery)
    (hnd : (s.books.map Book.id).Nodup) :
    ((matchingBooks s q).map Book.id).Nodup := by
  refine List.Nodup.map_on ?_ (List.nodup_dedup _)
  intro x hx y hy hxy
  exact List.inj_on_of_nodup_map hnd (matchingBooks_subset hx) (matchingBooks_subset hy) hxy

lemma nodup_sorted_map_id {s : Store} (q : ParsedQuery)
    (hnd : (s.books.map Book.id).Nodup) :
    ((sortByDcDesc (matchingBooks s q)).map Book.id).Nodup :=
  (((sortByDcDesc_perm (matchingBooks s q)).map Book.id).nodup_iff).2
    (nodup_matching_map_id q hnd)

lemma matching_perm_filter {s : Store} (q : ParsedQuery)
    (hnd : (s.books.map Book.id).Nodup) :
    List.Perm (matchingBooks s q) (s.books.filter (fun b => bookPred s q b)) := by
  have hbooks : s.books.Nodup := List.Nodup.of_map _ hnd
  have h1 : (matchingBooks s q).Nodup := List.nodup_dedup _
  refine (List.perm_ext_iff_of_nodup h1 (hbooks.filter _)).2 ?_
  intro b
  rw [mem_matchingBooks, List.mem_filter]

/-- C5: the matching set is deduplicated by book identity before counting
and pagination: no book id repeats in `results`, the count is the number
of distinct books satisfying the combined predicate, and the count is the
same whatever page is requested. -/
theorem C5_distinct (s : Store) (p : Params) (q : ParsedQuery) (r : BooksListResponse)
    (hnd : (s.books.map Book.id).Nodup)
    (hq : parseParams p = .ok q) (hr : get_books s p = .ok r) :
    (r.results.map BookResponse.id).Nodup
    ∧ r.count = (s.books.filter (fun b => bookPred s q b)).length
    ∧ (∀ k r', get_books s { p with page := k } = .ok r' → r'.count = r.count) := by
  have hr2 := get_books_out hq hr
  subst hr2
  refine ⟨?_, ?_, ?_⟩
  · rw [runQuery_results, List.map_map]
    have hcomp : (BookResponse.id ∘ projectBook s) = Book.id := rfl
    rw [hcomp]
    refine List.Nodup.sublist ?_ (nodup_sorted_map_id q hnd)
    exact ((List.take_sublist _ _).trans (List.drop_sublist _ _)).map Book.id
  · rw [runQuery_count, (matching_perm_filter q hnd).length_eq]
  · intro k r' hr'
    have hq2 : parseParams { p with page := k } = .ok q := by
      rw [parseParams_page]; exact hq
    have h2 := get_books_out hq2 hr'
    subst h2
    rfl

lemma length_le_ceil_mul {n ps : Nat} (hps : 0 < ps) :
    n ≤ ((n + ps - 1) / ps) * ps := by
  have h1 : n + ps - 1 < ((n + ps - 1) / ps + 1) * ps :=
    (Nat.div_lt_iff_lt_mul hps).1 (Nat.lt_succ_self _)
  have h2 : ((n + ps - 1) / ps + 1) * ps = ((n + ps - 1) / ps) * ps + ps := by ring
  rw [h2] at h1
  generalize ((n + ps - 1) / ps) * ps = m at h1 ⊢
  omega

lemma ceil_eq_nat_formula {n ps : Nat} (hps : 0 < ps) :
    (((n + ps - 1) / ps : Nat) : ℤ) = Int.ceil ((n : ℚ) / (ps : ℚ)) := by
  rw [eq_comm, Int.ceil_eq_iff]
  have hpsq : (0 : ℚ) < (ps : ℚ) := by exact_mod_cast hps
  have hA : ((n + ps - 1) / ps) * ps ≤ n + ps - 1 := Nat.div_mul_le_self _ _
  have hB : n ≤ ((n + ps - 1) / ps) * ps := length_le_ceil_mul hps
  have hnat : ((n + ps - 1) / ps) * ps + 1 ≤ n + ps := by
    generalize hm : ((n + ps - 1) / ps) * ps = m at hA ⊢
    omega
  set qn := (n + ps - 1) / ps with hqdef
  constructor
  · rw [lt_div_iff₀ hpsq]
    have hq : (qn : ℚ) * ps + 1 ≤ (n : ℚ) + ps := by exact_mod_cast hnat
    push_cast
    nlinarith [hq]
  · rw [div_le_iff₀ hpsq]
    have hq : (n : ℚ) ≤ (qn : ℚ) * ps := by exact_mod_cast hB
    push_cast
    linarith

/-- C6: the code-bug evidence — `tieStore`'s distinct matching set is two
books with equal download counts, and both `[tieB1, tieB2]` and
`[tieB2, tieB1]` are valid outputs of `ORDER BY download_count DESC`
(permutations of the matching set, sorted descending).  Since the code
issues a separate OFFSET/LIMIT query per page with no tie-breaking sort
key, the backend may use a different tie order for each page: slicing
page 1 (offset 0, limit 1) from the first order and page 2 (offset 1,
limit 1) from the second yields book 1 twice and book 2 never, although
both pages lie within `total_pages = 2`. -/
theorem C6_tie_pages_bug :
    matchingBooks tieStore wQNone = [tieB1, tieB2]
    ∧ List.Perm [tieB2, tieB1] (matchingBooks tieStore wQNone)
    ∧ List.Pairwise (fun a c => c.download_count ≤ a.download_count) [tieB1, tieB2]
    ∧ List.Pairwise (fun a c => c.download_count ≤ a.download_count) [tieB2, tieB1]
    ∧ (([tieB1, tieB2].drop ((1 - 1) * 1)).take 1
        ++ ([tieB2, tieB1].drop ((2 - 1) * 1)).take 1) = [tieB1, tieB1]
    ∧ tieB2 ∉ ([tieB1, tieB1] : List Book)
    ∧ (runQuery tieStore wQNone 1 1).count = 2
    ∧ (runQuery tieStore wQNone 1 1).total_pages = 2 := by
  decide

/-- C7: `total_pages` is the ceiling of `count / page_size`, and a zero
count gives zero pages. -/
theorem C7_total_pages (s : Store) (p : Params) (r : BooksListResponse)
    (hps : 0 < p.page_size) (hr : get_books s p = .ok r) :
    ((r.total_pages : Nat) : ℤ) = Int.ceil ((r.count : ℚ) / (p.page_size : ℚ))
    ∧ (r.count = 0 → r.total_pages = 0) := by
  cases hpp : parseParams p with
  | error e => rw [get_books, hpp] at hr; cases hr
  | ok q =>
    have hr2 := get_books_out hpp hr
    subst hr2
    rw [runQuery_total, runQuery_count]
    exact ⟨ceil_eq_nat_formula hps, fun h => by rw [h, Nat.div_eq_of_lt (by omega)]⟩

/-- C9: with the language filter active, a book is in the matching set iff
it has at least one associated Language whose code is literally (hence
case-sensitively) one of the parsed tokens. -/
theorem C9_language (s : Store) (v : List Nat) (page ps : Nat) (hv : v ≠ []) :
    ∃ q, parseParams ⟨none, some v, none, none, none, none, page, ps⟩ = .ok q ∧
      q.langs = some (parse_comma_separated (some v)) ∧
      ∀ b, b ∈ matchingBooks s q ↔
        (b ∈ s.books ∧ ∃ l ∈ s.languages, (b.id, l.id) ∈ s.book_languages ∧
          l.code ∈ parse_comma_separated (some v)) := by
  refine ⟨⟨none, some (parse_comma_separated (some v)), none, none, none, none⟩, ?_, rfl, ?_⟩
  · simp [parseParams, truthy, hv]
  · intro b
    rw [mem_matchingBooks]
    simp only [bookPred, Bool.and_eq_true, List.any_eq_true, decide_eq_true_eq,
      and_true, true_and]
    constructor
    · rintro ⟨hb, l, hl, hcode⟩
      obtain ⟨hls, hassoc⟩ := mem_bookLangs.1 hl
      exact ⟨hb, l, hls, hassoc, hcode⟩
    · rintro ⟨hb, l, hls, hassoc, hcode⟩
      exact ⟨hb, l, mem_bookLangs.2 ⟨hls, hassoc⟩, hcode⟩

/-- C10: every returned book whose stored title is the empty string (and
likewise a NULL title) is projected with the literal title `"Unknown"`. -/
theorem C10_unknown_title (s : Store) (p : Params) (r : BooksListResponse)
    (hr : get_books s p = .ok r) :
    ∀ resp ∈ r.results, ∃ b ∈ s.books, resp = projectBook s b ∧
      (b.title = some [] → resp.title = unknownTitle) := by
  cases hpp : parseParams p with
  | error e => rw [get_books, hpp] at hr; cases hr
  | ok q =>
    have hr2 := get_books_out hpp hr
    subst hr2
    intro resp hresp
    obtain ⟨b, h1, _, h3⟩ := mem_results hresp
    refine ⟨b, h1, h3, fun htitle => ?_⟩
    rw [h3]
    simp [projectBook, htitle]

/-- C4 counterexample: the topic token `"x_z"` (codes `[120,95,122]`)
returns book 7 although its only subject `"xyz"` does not contain the
token as a substring and the store has no bookshelves — the `_` is a
`LIKE` wildcard, refuting the claimed "if and only if". -/
theorem C4_counterexample :
    Except.map (fun r => r.results.map BookResponse.id)
        (get_books tStore ⟨none, none, none, some [120, 95, 122], none, none, 1, 25⟩)
      = .ok [7]
    ∧ (∀ x ∈ tStore.subjects, specContains [120, 95, 122] x.name = false)
    ∧ tStore.bookshelves = [] := by decide

/-- C4 (amended): for topic tokens free of the `LIKE` metacharacters `%`
(37) and `_` (95), a book is in the matching set iff some token has an
associated Subject or an associated Bookshelf whose name contains it as a
case-insensitive substring (OR across tokens, OR across the two entity
kinds); with no tokens the filter is inactive. -/
theorem C4_amended (s : Store) (v : List Nat) (page ps : Nat)
    (hsub : (s.subjects.map Subject.id).Nodup)
    (hsh : (s.bookshelves.map Bookshelf.id).Nodup)
    (hw : ∀ t ∈ parse_comma_separated (some v), ∀ c ∈ t, c ≠ 37 ∧ c ≠ 95) :
    ∃ q, parseParams ⟨none, none, none, some v, none, none, page, ps⟩ = .ok q ∧
      q.topics = nonEmptyOpt (parse_comma_separated (some v)) ∧
      ∀ b, b ∈ matchingBooks s q ↔
        (b ∈ s.books ∧ (parse_comma_separated (some v) = [] ∨
          ∃ t ∈ parse_comma_separated (some v),
            (∃ x ∈ bookSubjects s b, specContains t x.name = true) ∨
            (∃ x ∈ bookShelves s b, specContains t x.name = true))) := by
  have htop : (if truthy (some v) then nonEmptyOpt (parse_comma_separated (some v)) else none)
      = nonEmptyOpt (parse_comma_separated (some v)) := by
    rcases eq_or_ne v [] with rfl | hv
    · simp [truthy, parse_comma_separated, nonEmptyOpt]
    · simp [truthy, hv]
  refine ⟨⟨none, none, none, nonEmptyOpt (parse_comma_separated (some v)), none, none⟩,
    ?_, rfl, ?_⟩
  · simp only [parseParams, truthy]
    rcases eq_or_ne v [] with rfl | hv
    · simp [parse_comma_separated, nonEmptyOpt]
    · simp [hv]
  · intro b
    rw [mem_matchingBooks]
    rcases hne : nonEmptyOpt (parse_comma_separated (some v)) with _ | ts
    · have hnil : parse_comma_separated (some v) = [] := by
        by_contra hx
        simp [nonEmptyOpt, hx] at hne
      simp [bookPred, hne, hnil]
    · have hts : parse_comma_separated (some v) = ts ∧ ts ≠ [] := by
        by_cases hx : parse_comma_separated (some v) = []
        · rw [nonEmptyOpt, if_pos hx] at hne; cases hne
        · rw [nonEmptyOpt, if_neg hx] at hne
          cases hne
          exact ⟨rfl, hx⟩
      obtain ⟨hpv, htsne⟩ := hts
      rw [hpv] at hw ⊢
      simp only [bookPred, hne, Bool.and_eq_true, List.any_eq_true, and_true, true_and]
      constructor
      · rintro ⟨hb, t, htmem, hcond⟩
        exact ⟨hb, Or.inr ⟨t, htmem, (topicTokenCond_iff hsub hsh (hw t htmem)).1 hcond⟩⟩
      · rintro ⟨hb, (hx | ⟨t, htmem, hor⟩)⟩
        · exact absurd hx htsne
        · exact ⟨hb, t, htmem, (topicTokenCond_iff hsub hsh (hw t htmem)).2 hor⟩

/-- C2 counterexample: the raw `language` value `","` (code 44) parses to
an empty token set, yet the request returns zero books instead of
behaving like an omitted parameter (which returns both books). -/
theorem C2_counterexample :
    parse_comma_separated (some [44]) = []
    ∧ Except.map BooksListResponse.count
        (get_books wStore ⟨none, some [44], none, none, none, none, 1, 25⟩) = .ok 0
    ∧ Except.map BooksListResponse.count
        (get_books wStore ⟨none, none, none, none, none, none, 1, 25⟩) = .ok 2 := by
  decide

lemma parseParams_ok_inv {p : Params} {q : ParsedQuery} (h : parseParams p = .ok q) :
    q.langs = (if truthy p.language then some (parse_comma_separated p.language) else none)
    ∧ q.mimes = (if truthy p.mime_type then some (parse_comma_separated p.mime_type) else none)
    ∧ (truthy p.book_id = true → parse_comma_separated p.book_id = [] →
        q.bookIds = some []) := by
  unfold parseParams at h
  cases hb : (if truthy p.book_id then
      (parseIds (parse_comma_separated p.book_id)).map some else .ok none) with
  | error e => rw [hb] at h; cases h
  | ok bids =>
    rw [hb] at h
    cases h
    refine ⟨rfl, rfl, fun htr hparse => ?_⟩
    rw [htr, if_pos rfl, hparse] at hb
    simp only [parseIds, Except.map] at hb
    cases hb
    rfl

lemma matchingBooks_nil_of_empty_filter {s : Store} {q : ParsedQuery}
    (h : q.bookIds = some ([] : List Int)
      ∨ q.langs = some ([] : List (List Nat))
      ∨ q.mimes = some ([] : List (List Nat))) :
    matchingBooks s q = [] := by
  rw [List.eq_nil_iff_forall_not_mem]
  intro b hb
  obtain ⟨_, hpred⟩ := mem_matchingBooks.1 hb
  rcases h with h | h | h
  · simp [bookPred, h] at hpred
  · simp [bookPred, h] at hpred
  · simp [bookPred, h] at hpred

lemma runQuery_empty {s : Store} {q : ParsedQuery} {page ps : Nat}
    (h : matchingBooks s q = []) :
    (runQuery s q page ps).count = 0 ∧ (runQuery s q page ps).results = [] := by
  constructor
  · rw [runQuery_count, h]
    rfl
  · rw [runQuery_results, h]
    simp [sortByDcDesc]

lemma get_books_congr (p p' : Params) (h : parseParams p = parseParams p')
    (hpage : p.page = p'.page) (hsize : p.page_size = p'.page_size) :
    ∀ s, get_books s p = get_books s p' := by
  intro s
  rw [get_books, get_books, h, hpage, hsize]

/-- C2 (amended): `topic`, `author` and `title` inputs whose tokens all
trim to empty behave exactly like an omitted parameter, as do absent or
empty (falsy) `book_id`, `language`, `mime_type`; but a non-empty
`book_id`, `language` or `mime_type` whose tokens all trim to empty
applies its filter with an empty value set and matches no books at all. -/
theorem C2_amended (s : Store) (p : Params) :
    (parse_comma_separated p.topic = [] →
      get_books s p = get_books s { p with topic := none })
    ∧ (parse_comma_separated p.author = [] →
      get_books s p = get_books s { p with author := none })
    ∧ (parse_comma_separated p.title = [] →
      get_books s p = get_books s { p with title := none })
    ∧ (truthy p.book_id = false →
      get_books s p = get_books s { p with book_id := none })
    ∧ (truthy p.language = false →
      get_books s p = get_books s { p with language := none })
    ∧ (truthy p.mime_type = false →
      get_books s p = get_books s { p with mime_type := none })
    ∧ (truthy p.language = true → parse_comma_separated p.language = [] →
      ∀ r, get_books s p = .ok r → r.count = 0 ∧ r.results = [])
    ∧ (truthy p.mime_type = true → parse_comma_separated p.mime_type = [] →
      ∀ r, get_books s p = .ok r → r.count = 0 ∧ r.results = [])
    ∧ (truthy p.book_id = true → parse_comma_separated p.book_id = [] →
      ∀ r, get_books s p = .ok r → r.count = 0 ∧ r.results = []) := by
  refine ⟨?_, ?_, ?_, ?_, ?_, ?_, ?_, ?_, ?_⟩
  · intro h
    refine get_books_congr p { p with topic := none } ?_ rfl rfl s
    unfold parseParams
    have h2 : (if truthy p.topic then nonEmptyOpt (parse_comma_separated p.topic) else none)
        = (none : Option (List (List Nat))) := by
      rcases ht : truthy p.topic
      · simp
      · simp [nonEmptyOpt, h]
    rw [h2]
    rfl
  · intro h
    refine get_books_congr p { p with author := none } ?_ rfl rfl s
    unfold parseParams
    have h2 : (if truthy p.author then nonEmptyOpt (parse_comma_separated p.author) else none)
        = (none : Option (List (List Nat))) := by
      rcases ht : truthy p.author
      · simp
      · simp [nonEmptyOpt, h]
    rw [h2]
    rfl
  · intro h
    refine get_books_congr p { p with title := none } ?_ rfl rfl s
    unfold parseParams
    have h2 : (if truthy p.title then nonEmptyOpt (parse_comma_separated p.title) else none)
        = (none : Option (List (List Nat))) := by
      rcases ht : truthy p.title
      · simp
      · simp [nonEmptyOpt, h]
    rw [h2]
    rfl
  · intro h
    refine get_books_congr p { p with book_id := none } ?_ rfl rfl s
    unfold parseParams
    rw [h]
    rfl
  · intro h
    refine get_books_congr p { p with language := none } ?_ rfl rfl s
    unfold parseParams
    rw [h]
    rfl
  · intro h
    refine get_books_congr p { p with mime_type := none } ?_ rfl rfl s
    unfold parseParams
    rw [h]
    rfl
  · intro htr hpar r hr
    cases hpp : parseParams p with
    | error e => rw [get_books, hpp] at hr; cases hr
    | ok q =>
      have hr2 := get_books_out hpp hr
      subst hr2
      obtain ⟨hl, _, _⟩ := parseParams_ok_inv hpp
      rw [htr, if_pos rfl, hpar] at hl
      exact runQuery_empty (matchingBooks_nil_of_empty_filter (Or.inr (Or.inl hl)))
  · intro htr hpar r hr
    cases hpp : parseParams p with
    | error e => rw [get_books, hpp] at hr; cases hr
    | ok q =>
      have hr2 := get_books_out hpp hr
      subst hr2
      obtain ⟨_, hm, _⟩ := parseParams_ok_inv hpp
      rw [htr, if_pos rfl, hpar] at hm
      exact runQuery_empty (matchingBooks_nil_of_empty_filter (Or.inr (Or.inr hm)))
  · intro htr hpar r hr
    cases hpp : parseParams p with
    | error e => rw [get_books, hpp] at hr; cases hr
    | ok q =>
      have hr2 := get_books_out hpp hr
      subst hr2
      obtain ⟨_, _, hbid⟩ := parseParams_ok_inv hpp
      exact runQuery_empty (matchingBooks_nil_of_empty_filter (Or.inl (hbid htr hpar)))

theorem C1_filters_and_witness :
    (∀ resp ∈ (runQuery wStore wQNone 1 25).results,
        ∃ b ∈ wStore.books, bookPred wStore wQNone b = true ∧
          resp = projectBook wStore b)
    ∧ (wQNone = ⟨none, none, none, none, none, none⟩ →
        (runQuery wStore wQNone 1 25).count = wStore.books.dedup.length) :=
  C1_filters_and wStore wPNone wQNone (runQuery wStore wQNone 1 25)
    (by decide) (by decide)

theorem C2_amended_witness :
    get_books wStore ⟨none, none, none, some [44], none, none, 1, 25⟩ =
      get_books wStore ⟨none, none, none, none, none, none, 1, 25⟩
    ∧ (∀ r, get_books wStore ⟨none, some [44], none, none, none, none, 1, 25⟩ = .ok r →
        r.count = 0 ∧ r.results = []) := by
  constructor
  · exact (C2_amended wStore ⟨none, none, none, some [44], none, none, 1, 25⟩).1 (by decide)
  · exact (C2_amended wStore
      ⟨none, some [44], none, none, none, none, 1, 25⟩).2.2.2.2.2.2.1 (by decide) (by decide)

theorem C4_amended_witness :
    ∃ q, parseParams ⟨none, none, none, some [119, 97, 114], none, none, 1, 25⟩ = .ok q ∧
      q.topics = nonEmptyOpt (parse_comma_separated (some [119, 97, 114])) ∧
      ∀ b, b ∈ matchingBooks shStore q ↔
        (b ∈ shStore.books ∧ (parse_comma_separated (some [119, 97, 114]) = [] ∨
          ∃ t ∈ parse_comma_separated (some [119, 97, 114]),
            (∃ x ∈ bookSubjects shStore b, specContains t x.name = true) ∨
            (∃ x ∈ bookShelves shStore b, specContains t x.name = true))) :=
  C4_amended shStore [119, 97, 114] 1 25 (by decide) (by decide) (by decide)

theorem C5_distinct_witness :
    ((runQuery wStore wQNone 1 25).results.map BookResponse.id).Nodup
    ∧ (runQuery wStore wQNone 1 25).count =
        (wStore.books.filter (fun b => bookPred wStore wQNone b)).length
    ∧ (∀ k r', get_books wStore { wPNone with page := k } = .ok r' →
        r'.count = (runQuery wStore wQNone 1 25).count) :=
  C5_distinct wStore wPNone wQNone (runQuery wStore wQNone 1 25)
    (by decide) (by decide) (by decide)

theorem C7_total_pages_witness :
    (((runQuery wStore wQNone 1 25).total_pages : Nat) : ℤ)
      = Int.ceil (((runQuery wStore wQNone 1 25).count : ℚ) / (((25 : Nat)) : ℚ))
    ∧ ((runQuery wStore wQNone 1 25).count = 0 →
        (runQuery wStore wQNone 1 25).total_pages = 0) :=
  C7_total_pages wStore wPNone (runQuery wStore wQNone 1 25) (by decide) (by decide)

theorem C9_language_witness :
    ∃ q, parseParams ⟨none, some [101, 110], none, none, none, none, 1, 25⟩ = .ok q ∧
      q.langs = some (parse_comma_separated (some [101, 110])) ∧
      ∀ b, b ∈ matchingBooks wStore q ↔
        (b ∈ wStore.books ∧ ∃ l ∈ wStore.languages,
          (b.id, l.id) ∈ wStore.book_languages ∧
          l.code ∈ parse_comma_separated (some [101, 110])) :=
  C9_language wStore [101, 110] 1 25 (by decide)

theorem C10_unknown_title_witness :
    ∃ b ∈ uStore.books,
      projectBook uStore { id := 3, title := some [], download_count := 10 }
        = projectBook uStore b
      ∧ (b.title = some [] →
        (projectBook uStore { id := 3, title := some [], download_count := 10 }).title
          = unknownTitle) :=
  C10_unknown_title uStore wPNone (runQuery uStore wQNone 1 25) (by decide)
    (projectBook uStore { id := 3, title := some [], download_count := 10 }) (by decide)

end Gutenberg
